import Mathlib

/-!
# Verification of the laptopers-backend resource lifecycle layer

A shallow embedding of the Go controllers in `controllers/` and the
Cloudinary URL helper in `utils/`, together with proofs about the
conditional-freshness computation, the sparse partial-update merge
semantics, the enrichment join on hub reads, the favorite toggle, and the
creation-time validation of contributions.

Conventions of the embedding:
* MongoDB ObjectIDs are wrapped naturals (`Oid`); `Oid.hex` is the string
  rendering used when the controllers compare an owner id with the
  caller identity supplied by the auth middleware.
* `time.Time` values are naturals (`Time`); Go's `a.After(b)` is `b < a`.
* Go `float64` fields that are only ever compared with `0` (amounts,
  ratings, coordinates) are embedded as `Int`.
* Each Mongo collection is a `List` of documents; `FindOne` is
  `List.find?`, `UpdateOne`/`DeleteOne` touch the first matching element
  (`updateFirstBy` / `eraseFirstBy`), `InsertOne` appends, matching the
  driver's semantics on a store whose `_id` values are unique.
* Handlers are pure functions from their request data and the stores they
  read to a result record carrying the HTTP status, the `{error: ...}`
  body when present, the store after the request, and the ordered trace
  of document-store calls the handler issued (`StoreCall`), which lets
  theorems speak about "before any store call / store write".
* External collaborators (multipart upload to Cloudinary, `time.Parse`)
  are parameters: an upload attempt is an `Except String String`
  (error or secure URL), date parsing is a `String → Option Time`.
-/

/-- A MongoDB ObjectID (12 bytes), embedded as a natural number. -/
structure Oid where
  val : Nat
deriving DecidableEq, Repr

/-- `primitive.ObjectID.Hex()`: the string form used for identity checks
against the middleware-supplied `user_id` string. -/
def Oid.hex (o : Oid) : String :=
  toString o.val

/-- `primitive.ObjectID.IsZero()`: the all-zero ObjectID. -/
def Oid.isZero (o : Oid) : Bool :=
  o.val == 0

/-- Timestamps (`time.Time`), embedded as naturals. -/
abbrev Time := Nat

/-- One call issued against the document store, tagged with the
collection name; handlers record these in order. -/
inductive StoreCall where
  | findOne (coll : String)
  | find (coll : String)
  | insertOne (coll : String)
  | updateOne (coll : String)
  | deleteOne (coll : String)
  | countDocuments (coll : String)
deriving DecidableEq, Repr

/-- Result of a mutating handler: HTTP status, optional `{error: ...}`
message, the collection after the request, and the trace of store calls. -/
structure MutResult (σ : Type) where
  status : Nat
  errMsg : Option String
  store : σ
  calls : List StoreCall
deriving DecidableEq, Repr

/-- `models.Contribution` (models/contribution.go). -/
structure Contribution where
  id : Oid
  eventId : Oid
  contributorName : String
  contributorContact : String
  amount : Int
  currency : String
  method : String
  paymentRef : String
  status : String
  receiptURL : String
  createdAt : Time
  updatedAt : Time
deriving DecidableEq, Repr

/-- `models.Event` (models/event.go). -/
structure Event where
  id : Oid
  userId : Oid
  title : String
  description : String
  location : String
  targetAmount : Int
  deadline : Option Time
  status : String
  images : List String
  createdAt : Time
  updatedAt : Time
deriving DecidableEq, Repr

/-- `models.Review` (models/hub.go). -/
structure Review where
  id : Oid
  userId : Oid
  hubId : Oid
  rating : Int
  comment : String
  createdAt : Time
  updatedAt : Time
deriving DecidableEq, Repr

/-- `models.Favorite` (models/hub.go): existence of the record is the
favorited state, there is no boolean field. -/
structure Favorite where
  id : Oid
  userId : Oid
  hubId : Oid
  createdAt : Time
deriving DecidableEq, Repr

/-- Modelled from the spec: the `users` collection record (the models.User
source file is not among the provided sources); the hub enrichment join
only reads the display name (`name` field). -/
structure User where
  id : Oid
  name : String
deriving DecidableEq, Repr

/-- `models.ReviewResponse` (models/hub.go), the enriched review shape
attached to hubs by `ListHubs`. -/
structure ReviewResponse where
  id : Oid
  userId : Oid
  userName : String
  hubId : Oid
  rating : Int
  comment : String
  createdAt : Time
deriving DecidableEq, Repr

/-- `models.Coordinates` as decoded into Go (`lat`/`lng`, zero when the
BSON key is absent). -/
structure Coordinates where
  lat : Int
  lng : Int
deriving DecidableEq, Repr

/-- The persisted `coordinates` BSON subdocument: each axis key may be
absent (a partial subdocument written by `$set` keeps only the keys it
was given; an absent axis decodes to 0 in `models.Coordinates`). -/
structure CoordDoc where
  lat : Option Int := none
  lng : Option Int := none
deriving DecidableEq, Repr

/-- The persisted BSON document of a hub, following the bson tags of
`models.Hub`: `LocationName` persists under key "location" and `Rating`
under key "target_amount" (the tags in models/hub.go), while updates
stage the distinct keys "location_name" and "rating", which therefore
live as separate stray keys (`locationNameKey` / `ratingKey`). -/
structure HubDoc where
  id : Oid
  userId : Oid
  title : String
  description : String
  coordinates : CoordDoc
  location : String
  targetAmount : Int
  images : List String
  createdAt : Time
  updatedAt : Time
  locationNameKey : Option String := none
  ratingKey : Option Int := none
deriving DecidableEq, Repr

/-- `models.Hub` as decoded from its BSON document (bson tags of
models/hub.go), including the transient enrichment fields. -/
structure Hub where
  id : Oid
  userId : Oid
  title : String
  description : String
  coordinates : Coordinates
  locationName : String
  rating : Int
  images : List String
  createdAt : Time
  updatedAt : Time
  isFavorite : Bool := false
  reviews : List ReviewResponse := []
deriving DecidableEq, Repr

/-- Decoding a stored hub document into `models.Hub`: `locationName`
reads the "location" key, `rating` reads the "target_amount" key, and an
absent coordinate axis decodes to 0. -/
def HubDoc.decode (d : HubDoc) : Hub :=
  { id := d.id
    userId := d.userId
    title := d.title
    description := d.description
    coordinates := ⟨d.coordinates.lat.getD 0, d.coordinates.lng.getD 0⟩
    locationName := d.location
    rating := d.targetAmount
    images := d.images
    createdAt := d.createdAt
    updatedAt := d.updatedAt }

/-- `UpdateOne` with an `_id` filter: replace the first matching document
(`_id` is unique in MongoDB, so at most one document matches). -/
def updateFirstBy {α : Type} (l : List α) (p : α → Bool) (f : α → α) : List α :=
  match l with
  | [] => []
  | x :: xs => if p x then f x :: xs else x :: updateFirstBy xs p f

/-- `DeleteOne`: remove the first matching document. -/
def eraseFirstBy {α : Type} (l : List α) (p : α → Bool) : List α :=
  match l with
  | [] => []
  | x :: xs => if p x then xs else x :: eraseFirstBy xs p

/-- Modelled from the spec: `utils.GenerateETag` is not among the
provided sources; §4.2 specifies a fingerprint deterministically derived
from the freshest element's identifier and `updated_at`. -/
def GenerateETag (id : Oid) (t : Time) : String :=
  "W/" ++ toString id.val ++ "-" ++ toString t

/-- The `Last-Modified` header value
(`UpdatedAt.UTC().Format(http.TimeFormat)`); the Go stdlib rendering is
modelled as the injective decimal rendering of the timestamp. -/
def formatHTTPDate (t : Time) : String :=
  "HTTP-date " ++ toString t

/-- The sequential multipart upload loop shared by the create/update
handlers: each attempt either fails (aborting the whole loop with its
error) or yields a secure URL. -/
def processUploads : List (Except String String) → Except String (List String)
  | [] => .ok []
  | .error e :: _ => .error e
  | .ok url :: rest => (processUploads rest).map (url :: ·)

/-- Count an optional staged field: 1 if present in the update document. -/
def optCount {α : Type} (o : Option α) : Nat :=
  if o.isSome then 1 else 0

/-! ## Contributions controller (controllers/contributions_controller.go) -/

/-- The JSON payload bound into `models.Contribution` by
`CreateContribution`/`UpdateContribution` (no binding tags, so binding
itself imposes nothing; absent fields take Go zero values). -/
structure ContributionInput where
  eventId : Oid := ⟨0⟩
  contributorName : String := ""
  contributorContact : String := ""
  amount : Int := 0
  currency : String := ""
  method : String := ""
  paymentRef : String := ""
  status : String := ""
  receiptURL : String := ""
deriving DecidableEq, Repr

/-- The field-level update document staged by `UpdateContribution`
(`bson.M`); `updatedAt` is always staged, each other key only when its
input is non-default. -/
structure ContributionUpdateDoc where
  updatedAt : Time
  contributorName : Option String := none
  contributorContact : Option String := none
  amount : Option Int := none
  currency : Option String := none
  method : Option String := none
  paymentRef : Option String := none
  status : Option String := none
  receiptURL : Option String := none
deriving DecidableEq, Repr

/-- `len(update)` for the staged contribution update document. -/
def ContributionUpdateDoc.size (u : ContributionUpdateDoc) : Nat :=
  1 + optCount u.contributorName + optCount u.contributorContact +
    optCount u.amount + optCount u.currency + optCount u.method +
    optCount u.paymentRef + optCount u.status + optCount u.receiptURL

/-- The staging step of `UpdateContribution` (lines 188-212): non-empty
strings are staged, `amount` only when strictly positive. -/
def stageContributionUpdate (now : Time) (inp : ContributionInput) :
    ContributionUpdateDoc :=
  { updatedAt := now
    contributorName := if inp.contributorName ≠ "" then some inp.contributorName else none
    contributorContact := if inp.contributorContact ≠ "" then some inp.contributorContact else none
    amount := if inp.amount > 0 then some inp.amount else none
    currency := if inp.currency ≠ "" then some inp.currency else none
    method := if inp.method ≠ "" then some inp.method else none
    paymentRef := if inp.paymentRef ≠ "" then some inp.paymentRef else none
    status := if inp.status ≠ "" then some inp.status else none
    receiptURL := if inp.receiptURL ≠ "" then some inp.receiptURL else none }

/-- `$set` application of a staged contribution update to a stored
document (all staged keys match the bson tags of the model). -/
def ContributionUpdateDoc.apply (u : ContributionUpdateDoc) (c : Contribution) :
    Contribution :=
  { c with
    updatedAt := u.updatedAt
    contributorName := u.contributorName.getD c.contributorName
    contributorContact := u.contributorContact.getD c.contributorContact
    amount := u.amount.getD c.amount
    currency := u.currency.getD c.currency
    method := u.method.getD c.method
    paymentRef := u.paymentRef.getD c.paymentRef
    status := u.status.getD c.status
    receiptURL := u.receiptURL.getD c.receiptURL }

/-- `UpdateContribution` (lines 174-235): bind, stage, reject a staged
set holding only `updated_at`, then `UpdateOne` with a matched-count
check. -/
def UpdateContribution (store : List Contribution) (oid : Oid)
    (inp : ContributionInput) (now : Time) : MutResult (List Contribution) :=
  let u := stageContributionUpdate now inp
  if u.size = 1 then
    ⟨400, some "no fields to update", store, []⟩
  else if store.any (fun c => c.id == oid) then
    ⟨200, none, updateFirstBy store (fun c => c.id == oid) u.apply,
      [.updateOne "contributions"]⟩
  else
    ⟨404, some "contribution not found", store, [.updateOne "contributions"]⟩

/-- `CreateContribution` (lines 18-77): require a non-zero `event_id`,
require the referenced event to exist, require a strictly positive
amount, then insert with status PENDING and both timestamps `now`. -/
def CreateContribution (events : List Event) (store : List Contribution)
    (inp : ContributionInput) (newId : Oid) (now : Time) :
    MutResult (List Contribution) :=
  if inp.eventId.isZero then
    ⟨400, some "event_id is required", store, []⟩
  else
    match events.find? (fun e => e.id == inp.eventId) with
    | none => ⟨400, some "event not found", store, [.findOne "events"]⟩
    | some _ =>
      if inp.amount ≤ 0 then
        ⟨400, some "amount must be greater than 0", store, [.findOne "events"]⟩
      else
        ⟨201, none,
          store ++ [{ id := newId
                      eventId := inp.eventId
                      contributorName := inp.contributorName
                      contributorContact := inp.contributorContact
                      amount := inp.amount
                      currency := inp.currency
                      method := inp.method
                      paymentRef := inp.paymentRef
                      status := "PENDING"
                      receiptURL := inp.receiptURL
                      createdAt := now
                      updatedAt := now }],
          [.findOne "events", .insertOne "contributions"]⟩

/-- Response of `ListContributions`: status, optional body, optional
`ETag` and `Last-Modified` headers. -/
structure ListResponse where
  status : Nat
  body : Option (List Contribution)
  etagHeader : Option String
  lastModified : Option String
deriving DecidableEq, Repr

/-- The freshest-element scan of `ListContributions` (lines 117-122):
`latest` starts at the head and is replaced whenever an element's
`updated_at` is strictly later. -/
def latestBy (c : Contribution) (cs : List Contribution) : Contribution :=
  cs.foldl (fun latest x => if latest.updatedAt < x.updatedAt then x else latest) c

/-- `ListContributions` (lines 81-137) on the already-filtered result
set: empty sets return an empty array with no freshness metadata; for
non-empty sets the ETag and Last-Modified come from the freshest
element, and an exactly-matching non-empty `If-None-Match` short-circuits
to 304 with no body and no headers. -/
def ListContributions (cs : List Contribution) (ifNoneMatch : String) :
    ListResponse :=
  match cs with
  | [] => ⟨200, some [], none, none⟩
  | c :: rest =>
    let latest := latestBy c (c :: rest)
    let etag := GenerateETag latest.id latest.updatedAt
    if ifNoneMatch ≠ "" ∧ ifNoneMatch = etag then
      ⟨304, none, none, none⟩
    else
      ⟨200, some (c :: rest), some etag, some (formatHTTPDate latest.updatedAt)⟩

/-! ## Events controller (controllers/contributions_controller.go,
`CreateEvent`..`DeleteEvent`) -/

/-- The form payload bound by `UpdateEvent` (no field carries a binding
tag, so binding always succeeds; `deadline` is the raw string, `images`
distinguishes an absent list (`nil`) from a supplied one). -/
structure EventUpdateInput where
  title : String := ""
  description : String := ""
  location : String := ""
  targetAmount : Int := 0
  deadline : Option String := none
  status : String := ""
  images : Option (List String) := none
deriving DecidableEq, Repr

/-- The field-level update document staged by `UpdateEvent`. -/
structure EventUpdateDoc where
  updatedAt : Time
  title : Option String := none
  description : Option String := none
  location : Option String := none
  targetAmount : Option Int := none
  status : Option String := none
  deadline : Option Time := none
  images : Option (List String) := none
deriving DecidableEq, Repr

/-- `len(update)` for the staged event update document. -/
def EventUpdateDoc.size (u : EventUpdateDoc) : Nat :=
  1 + optCount u.title + optCount u.description + optCount u.location +
    optCount u.targetAmount + optCount u.status + optCount u.deadline +
    optCount u.images

/-- The deadline branch of `UpdateEvent` (lines 561-579): an absent or
empty string stages nothing, a non-empty string must parse (via
`time.Parse` with fallbacks, modelled by the `parseTime` parameter) or
the request aborts with 400. -/
def deadlineStage (parseTime : String → Option Time) :
    Option String → Except String (Option Time)
  | none => .ok none
  | some s =>
    if s = "" then .ok none
    else
      match parseTime s with
      | some t => .ok (some t)
      | none => .error "invalid deadline format, use RFC3339 or YYYY-MM-DD"

/-- The staging step of `UpdateEvent` (lines 544-605): non-empty strings
and a positive target amount are staged; the images key is staged iff
the caller supplied a retained list or at least one new file uploaded,
and then holds retained ++ new (an `append`, never a diff). -/
def stageEventUpdate (now : Time) (inp : EventUpdateInput)
    (parsedDeadline : Option Time) (newImageURLs : List String) :
    EventUpdateDoc :=
  { updatedAt := now
    title := if inp.title ≠ "" then some inp.title else none
    description := if inp.description ≠ "" then some inp.description else none
    location := if inp.location ≠ "" then some inp.location else none
    targetAmount := if inp.targetAmount > 0 then some inp.targetAmount else none
    status := if inp.status ≠ "" then some inp.status else none
    deadline := parsedDeadline
    images := if inp.images.isSome || newImageURLs ≠ [] then
        some (inp.images.getD [] ++ newImageURLs)
      else none }

/-- `$set` application of a staged event update (all staged keys match
the bson tags of `models.Event`). -/
def EventUpdateDoc.apply (u : EventUpdateDoc) (e : Event) : Event :=
  { e with
    updatedAt := u.updatedAt
    title := u.title.getD e.title
    description := u.description.getD e.description
    location := u.location.getD e.location
    targetAmount := u.targetAmount.getD e.targetAmount
    status := u.status.getD e.status
    deadline := match u.deadline with
      | some d => some d
      | none => e.deadline
    images := u.images.getD e.images }

/-- `UpdateEvent` (lines 492-632): identity check, fetch of the existing
event, owner-or-admin permission check, binding, deadline parse, upload
loop, staging, no-op rejection, `$set` (matched count unchecked), and a
re-fetch for the response body. -/
def UpdateEvent (events : List Event) (role requesterID : String) (objID : Oid)
    (inp : EventUpdateInput) (uploads : List (Except String String))
    (parseTime : String → Option Time) (now : Time) : MutResult (List Event) :=
  if requesterID = "" then ⟨401, some "unauthorized", events, []⟩
  else
    match events.find? (fun e => e.id == objID) with
    | none => ⟨404, some "Event not found", events, [.findOne "events"]⟩
    | some existing =>
      if role ≠ "admin" ∧ existing.userId.hex ≠ requesterID then
        ⟨403, some "Access denied", events, [.findOne "events"]⟩
      else
        match deadlineStage parseTime inp.deadline with
        | .error msg => ⟨400, some msg, events, [.findOne "events"]⟩
        | .ok parsedDeadline =>
          match processUploads uploads with
          | .error _ => ⟨500, some "image upload failed", events, [.findOne "events"]⟩
          | .ok newImageURLs =>
            let u := stageEventUpdate now inp parsedDeadline newImageURLs
            if u.size = 1 then
              ⟨400, some "no fields to update", events, [.findOne "events"]⟩
            else
              let events2 := updateFirstBy events (fun e => e.id == objID) u.apply
              match events2.find? (fun e => e.id == objID) with
              | none => ⟨500, some "Failed to retrieve updated event", events2,
                  [.findOne "events", .updateOne "events", .findOne "events"]⟩
              | some _ => ⟨200, none, events2,
                  [.findOne "events", .updateOne "events", .findOne "events"]⟩

/-- `DeleteEvent` (lines 636-691): identity check, fetch, owner-or-admin
check, delete; the Cloudinary cleanup afterwards is best-effort and
touches no store. In this sequential model the just-fetched document is
still present, so the deleted-count-zero branch cannot fire. -/
def DeleteEvent (events : List Event) (role requesterID : String) (oid : Oid) :
    MutResult (List Event) :=
  if requesterID = "" then ⟨401, some "unauthorized", events, []⟩
  else
    match events.find? (fun e => e.id == oid) with
    | none => ⟨404, some "event not found", events, [.findOne "events"]⟩
    | some existing =>
      if role ≠ "admin" ∧ existing.userId.hex ≠ requesterID then
        ⟨403, some "access denied", events, [.findOne "events"]⟩
      else
        ⟨200, none, eraseFirstBy events (fun e => e.id == oid),
          [.findOne "events", .deleteOne "events"]⟩

/-! ## Hubs controller (controllers/hubs_controller.go) -/

/-- The form payload bound by `UpdateHub`: `title` carries
`binding:"required"`, the coordinate axes are optional pointers
(`*float64`), `images` is the retained-URL list (nil when absent). -/
structure HubUpdateInput where
  title : String := ""
  description : String := ""
  lat : Option Int := none
  lng : Option Int := none
  locationName : String := ""
  rating : Int := 0
  images : Option (List String) := none
deriving DecidableEq, Repr

/-- The partial `coordinates` subdocument staged by `UpdateHub`
(lines 360-366): only the supplied axes appear as keys. -/
structure CoordUpdateDoc where
  lat : Option Int := none
  lng : Option Int := none
deriving DecidableEq, Repr

/-- The field-level update document staged by `UpdateHub`. Note the
staged keys "location_name" and "rating" differ from the persisted bson
tags of `models.Hub` ("location" / "target_amount"). -/
structure HubUpdateDoc where
  updatedAt : Time
  title : Option String := none
  description : Option String := none
  locationName : Option String := none
  rating : Option Int := none
  coordinates : Option CoordUpdateDoc := none
  images : Option (List String) := none
deriving DecidableEq, Repr

/-- `len(update)` for the staged hub update document. -/
def HubUpdateDoc.size (u : HubUpdateDoc) : Nat :=
  1 + optCount u.title + optCount u.description + optCount u.locationName +
    optCount u.rating + optCount u.coordinates + optCount u.images

/-- The staging step of `UpdateHub` (lines 345-395): the partial
coordinates subdocument is staged under the single key "coordinates"
whenever at least one axis was supplied; the images key holds
retained ++ new when either was supplied. -/
def stageHubUpdate (now : Time) (inp : HubUpdateInput)
    (newImageURLs : List String) : HubUpdateDoc :=
  { updatedAt := now
    title := if inp.title ≠ "" then some inp.title else none
    description := if inp.description ≠ "" then some inp.description else none
    locationName := if inp.locationName ≠ "" then some inp.locationName else none
    rating := if inp.rating > 0 then some inp.rating else none
    coordinates := if inp.lat.isSome || inp.lng.isSome then
        some { lat := inp.lat, lng := inp.lng }
      else none
    images := if inp.images.isSome || newImageURLs ≠ [] then
        some (inp.images.getD [] ++ newImageURLs)
      else none }

/-- `$set` application of a staged hub update to the stored document.
Setting the key "coordinates" replaces the whole subdocument with the
staged partial one (MongoDB `$set` semantics on a document value);
"location_name" and "rating" land in their stray keys. -/
def HubUpdateDoc.apply (u : HubUpdateDoc) (d : HubDoc) : HubDoc :=
  { d with
    updatedAt := u.updatedAt
    title := u.title.getD d.title
    description := u.description.getD d.description
    locationNameKey := match u.locationName with
      | some s => some s
      | none => d.locationNameKey
    ratingKey := match u.rating with
      | some r => some r
      | none => d.ratingKey
    coordinates := match u.coordinates with
      | some cu => ⟨cu.lat, cu.lng⟩
      | none => d.coordinates
    images := u.images.getD d.images }

/-- The gin validation message produced when the required `title` form
field is absent or empty in `UpdateHub`'s bind struct. -/
def requiredTitleErr : String :=
  "Key: 'Title' Error:Field validation for 'Title' failed on the 'required' tag"

/-- `c.ShouldBind` for `UpdateHub`'s input struct: the only binding tag
is `binding:"required"` on `Title`, so binding fails exactly when the
title is empty. -/
def bindHubUpdateInput (raw : HubUpdateInput) : Except String HubUpdateInput :=
  if raw.title = "" then .error requiredTitleErr else .ok raw

/-- `UpdateHub` (lines 292-422): identity check, fetch, owner-or-admin
check, binding (title required), upload loop, staging, no-op rejection,
`$set`, re-fetch. -/
def UpdateHub (hubs : List HubDoc) (role requesterID : String) (objID : Oid)
    (raw : HubUpdateInput) (uploads : List (Except String String))
    (now : Time) : MutResult (List HubDoc) :=
  if requesterID = "" then ⟨401, some "unauthorized", hubs, []⟩
  else
    match hubs.find? (fun h => h.id == objID) with
    | none => ⟨404, some "Hub not found", hubs, [.findOne "hubs"]⟩
    | some existing =>
      if role ≠ "admin" ∧ existing.userId.hex ≠ requesterID then
        ⟨403, some "Access denied", hubs, [.findOne "hubs"]⟩
      else
        match bindHubUpdateInput raw with
        | .error msg => ⟨400, some msg, hubs, [.findOne "hubs"]⟩
        | .ok inp =>
          match processUploads uploads with
          | .error _ => ⟨500, some "image upload failed", hubs, [.findOne "hubs"]⟩
          | .ok newImageURLs =>
            let u := stageHubUpdate now inp newImageURLs
            if u.size = 1 then
              ⟨400, some "no fields to update", hubs, [.findOne "hubs"]⟩
            else
              let hubs2 := updateFirstBy hubs (fun h => h.id == objID) u.apply
              match hubs2.find? (fun h => h.id == objID) with
              | none => ⟨500, some "Failed to retrieve updated hub", hubs2,
                  [.findOne "hubs", .updateOne "hubs", .findOne "hubs"]⟩
              | some _ => ⟨200, none, hubs2,
                  [.findOne "hubs", .updateOne "hubs", .findOne "hubs"]⟩

/-- `DeleteHub` (lines 426-481): identity check, fetch, owner-or-admin
check, delete; Cloudinary cleanup is best-effort, after the response
store state is already determined. -/
def DeleteHub (hubs : List HubDoc) (role requesterID : String) (oid : Oid) :
    MutResult (List HubDoc) :=
  if requesterID = "" then ⟨401, some "unauthorized", hubs, []⟩
  else
    match hubs.find? (fun h => h.id == oid) with
    | none => ⟨404, some "Hub not found", hubs, [.findOne "hubs"]⟩
    | some existing =>
      if role ≠ "admin" ∧ existing.userId.hex ≠ requesterID then
        ⟨403, some "access denied", hubs, [.findOne "hubs"]⟩
      else
        ⟨200, none, eraseFirstBy hubs (fun h => h.id == oid),
          [.findOne "hubs", .deleteOne "hubs"]⟩

/-! ## Hub read paths: enrichment join -/

/-- Case-insensitive substring test on titles, modelling the
`$regex`/`$options: "i"` filter for metacharacter-free query strings. -/
def hasSublist (n : List Char) : List Char → Bool
  | [] => n.isPrefixOf []
  | c :: rest => n.isPrefixOf (c :: rest) || hasSublist n rest

/-- Case-insensitive containment of `needle` in `hay`. -/
def containsCI (needle hay : String) : Bool :=
  hasSublist needle.toLower.toList hay.toLower.toList

/-- The per-review enrichment of `ListHubs` (lines 154-173): resolve the
authoring user's name from the users collection, substituting "Unknown"
when the lookup fails. -/
def enrichReview (users : List User) (r : Review) : ReviewResponse :=
  { id := r.id
    userId := r.userId
    userName := match users.find? (fun u => u.id == r.userId) with
      | some u => u.name
      | none => "Unknown"
    hubId := r.hubId
    rating := r.rating
    comment := r.comment
    createdAt := r.createdAt }

/-- Response of `ListHubs`. -/
structure ListHubsResponse where
  status : Nat
  body : Option (List Hub)
deriving DecidableEq, Repr

/-- `ListHubs` (lines 109-185): requires a parseable caller id, filters
by optional case-insensitive title substring, then per hub attaches the
enriched reviews and the per-caller favorite flag; review/user/favorite
lookups can only vary the enrichment, never fail the request. -/
def ListHubs (hubs : List HubDoc) (reviews : List Review) (users : List User)
    (favorites : List Favorite) (requester? : Option Oid) (q : String) :
    ListHubsResponse :=
  match requester? with
  | none => ⟨401, none⟩
  | some userId =>
    let filtered := if q ≠ "" then hubs.filter (fun h => containsCI q h.title) else hubs
    let enriched := filtered.map (fun d =>
      { d.decode with
        reviews := (reviews.filter (fun r => r.hubId == d.id)).map (enrichReview users)
        isFavorite := favorites.any (fun f => f.userId == userId && f.hubId == d.id) })
    ⟨200, some enriched⟩

/-- The review shape of `GetHub`'s response (the handler-local
`ReviewResponse` struct, lines 234-240). -/
structure GetHubReviewResponse where
  id : Oid
  userName : String
  comment : String
  rating : Int
  createdAt : Time
deriving DecidableEq, Repr

/-- The per-review enrichment of `GetHub` (lines 244-262): a failed user
lookup leaves the name "Unknown User". -/
def enrichGetHubReview (users : List User) (r : Review) : GetHubReviewResponse :=
  { id := r.id
    userName := match users.find? (fun u => u.id == r.userId) with
      | some u => u.name
      | none => "Unknown User"
    comment := r.comment
    rating := r.rating
    createdAt := r.createdAt }

/-- Response of `GetHub`. -/
structure GetHubResponse where
  status : Nat
  hub : Option Hub
  reviews : Option (List GetHubReviewResponse)
  isFavorite : Option Bool
  etagHeader : Option String
deriving DecidableEq, Repr

/-- `GetHub` (lines 188-289): publicly accessible hub fetch; reviews are
enriched with "Unknown User" fallbacks; the favorite flag is counted
only for a parseable caller id; an exactly-matching non-empty
`If-None-Match` yields 304 with no body. -/
def GetHub (hubs : List HubDoc) (reviews : List Review) (users : List User)
    (favorites : List Favorite) (uid? : Option Oid) (hubId : Oid)
    (ifNoneMatch : String) : GetHubResponse :=
  match hubs.find? (fun h => h.id == hubId) with
  | none => ⟨404, none, none, none, none⟩
  | some d =>
    let hub := d.decode
    let rs := (reviews.filter (fun r => r.hubId == hubId)).map (enrichGetHubReview users)
    let isFav := match uid? with
      | some userId =>
        (favorites.countP (fun f => f.hubId == hubId && f.userId == userId)) > 0
      | none => false
    let etag := GenerateETag hub.id hub.updatedAt
    if ifNoneMatch ≠ "" ∧ ifNoneMatch = etag then
      ⟨304, none, none, none, none⟩
    else
      ⟨200, some hub, some rs, some isFav, some etag⟩

/-! ## ToggleFavorite (controllers/hubs_controller.go, lines 531-582) -/

/-- The favorited state of a (user, hub) pair: a matching record exists. -/
def favExists (store : List Favorite) (userId hubId : Oid) : Bool :=
  store.any (fun f => f.userId == userId && f.hubId == hubId)

/-- Response and post-store of `ToggleFavorite`. -/
structure ToggleResult where
  status : Nat
  favorite : Option Bool
  store : List Favorite
deriving DecidableEq, Repr

/-- `ToggleFavorite`: if a favorite record for (caller, hub) is found it
is deleted by its `_id` and the response reports `favorite: false`;
otherwise a fresh record (`newId` models `primitive.NewObjectID()`) is
inserted and the response reports `favorite: true`. -/
def ToggleFavorite (store : List Favorite) (userId hubId newId : Oid)
    (now : Time) : ToggleResult :=
  match store.find? (fun f => f.userId == userId && f.hubId == hubId) with
  | some fav =>
    ⟨200, some false, eraseFirstBy store (fun f => f.id == fav.id)⟩
  | none =>
    ⟨200, some true, store ++ [{ id := newId, userId := userId, hubId := hubId,
                                 createdAt := now }]⟩

/-! ## Cloudinary public-ID extraction (utils/cloudinary.go) -/

/-- Split a character list at every occurrence of the separator
(`strings.Split` with a one-character separator). -/
def splitOnChar (c : Char) : List Char → List (List Char)
  | [] => [[]]
  | x :: xs =>
    if x = c then [] :: splitOnChar c xs
    else
      match splitOnChar c xs with
      | h :: t => (x :: h) :: t
      | [] => [[x]]

/-- `strings.Split(path, "/")` as a list of strings. -/
def splitSlash (s : String) : List String :=
  (splitOnChar '/' s.toList).map String.mk

/-- Break a character list at the first occurrence of "://" (the
scheme separator recognised by `url.Parse`). -/
def breakSchemeSep : List Char → Option (List Char)
  | [] => none
  | x :: xs =>
    if [':', '/', '/'].isPrefixOf (x :: xs) then some ((x :: xs).drop 3)
    else breakSchemeSep xs

/-- The `Path` component of `url.Parse` for the URL shapes reaching
`extractPublicID` (scheme://host/path, no query or fragment): everything
from the first slash after the host; a string without "://" is parsed as
a relative URL whose path is the whole string. `url.Parse` does not fail
on such inputs, so the error return is not reachable here. -/
def urlPath (s : String) : String :=
  match breakSchemeSep s.toList with
  | some hostAndPath => String.mk (hostAndPath.dropWhile (· ≠ '/'))
  | none => s

/-- Go `strings.HasPrefix`. -/
def strHasPrefix (s pre : String) : Bool :=
  pre.toList.isPrefixOf s.toList

/-- Go `path.Ext`: the suffix beginning at the final dot of the final
slash-separated element, empty if there is no dot. -/
def pathExt (p : String) : String :=
  let last := ((splitSlash p).getLast?).getD ""
  let revTail := last.toList.reverse.takeWhile (· ≠ '.')
  if revTail.length = last.toList.length then ""
  else String.mk ('.' :: revTail.reverse)

/-- Go `path.Join` for dot-free segments: drop empty elements and join
with "/". -/
def pathJoin : List String → String
  | [] => ""
  | e :: rest =>
    if e = "" then pathJoin rest
    else
      match pathJoin rest with
      | "" => e
      | joined => e ++ "/" ++ joined

/-- Go `strings.TrimSuffix`: drop the suffix when present. -/
def trimSuffix (s suffix : String) : String :=
  if suffix.toList.reverse.isPrefixOf s.toList.reverse then
    String.mk (s.toList.take (s.toList.length - suffix.toList.length))
  else s

/-- `extractPublicID` (utils/cloudinary.go lines 182-205), line by line:
split the URL path on "/", reject fewer than 3 segments, drop the
second-to-last segment when it starts with "v", then join everything
from index 3 on and trim the extension of the last segment. -/
def extractPublicID (imageURL : String) : Except String String :=
  let parts := splitSlash (urlPath imageURL)
  if parts.length < 3 then .error "invalid cloudinary URL format"
  else
    let parts2 :=
      if strHasPrefix (parts.getD (parts.length - 2) "") "v" then
        parts.take (parts.length - 2) ++ [parts.getD (parts.length - 1) ""]
      else parts
    let lastPart := parts2.getD (parts2.length - 1) ""
    .ok (trimSuffix (pathJoin (parts2.drop 3)) (pathExt lastPart))

/-! ## Helper lemmas -/

theorem find?_updateFirstBy {α : Type} (l : List α) (p : α → Bool) (f : α → α)
    (hf : ∀ x, p x = true → p (f x) = true) :
    (updateFirstBy l p f).find? p = (l.find? p).map f := by
  induction l with
  | nil => rfl
  | cons x xs ih =>
    by_cases hx : p x = true
    · rw [updateFirstBy, if_pos hx, List.find?_cons_of_pos _ (hf x hx),
        List.find?_cons_of_pos _ hx, Option.map_some']
    · have hx' : p x = false := by
        cases hpx : p x
        · rfl
        · exact absurd hpx hx
      rw [updateFirstBy, if_neg (by simp [hx']),
        List.find?_cons_of_neg _ (by simp [hx']),
        List.find?_cons_of_neg _ (by simp [hx']), ih]

theorem mem_of_mem_eraseFirstBy {α : Type} {l : List α} {p : α → Bool} {x : α}
    (h : x ∈ eraseFirstBy l p) : x ∈ l := by
  induction l with
  | nil => simp [eraseFirstBy] at h
  | cons a t ih =>
    rw [eraseFirstBy] at h
    by_cases ha : p a = true
    · rw [if_pos ha] at h
      exact List.mem_cons_of_mem a h
    · rw [if_neg ha] at h
      rcases List.mem_cons.mp h with h | h
      · exact h ▸ List.mem_cons_self a t
      · exact List.mem_cons_of_mem a (ih h)

theorem eraseFirstBy_append_no_match {α : Type} (l1 l2 : List α) (p : α → Bool)
    (h : ∀ x ∈ l1, p x = false) :
    eraseFirstBy (l1 ++ l2) p = l1 ++ eraseFirstBy l2 p := by
  induction l1 with
  | nil => rfl
  | cons a t ih =>
    have ha : p a = false := h a (List.mem_cons_self a t)
    rw [List.cons_append, eraseFirstBy, if_neg (by simp [ha]), List.cons_append,
      ih (fun x hx => h x (List.mem_cons_of_mem a hx))]

theorem find?_append_of_none {α : Type} (l1 l2 : List α) (p : α → Bool)
    (h : l1.find? p = none) : (l1 ++ l2).find? p = l2.find? p := by
  induction l1 with
  | nil => rfl
  | cons a t ih =>
    rw [List.find?_cons] at h
    cases hpa : p a with
    | true => rw [hpa] at h; exact absurd h (by simp)
    | false =>
      rw [hpa] at h
      rw [List.cons_append, List.find?_cons, hpa, ih h]

theorem processUploads_map_ok (urls : List String) :
    processUploads (urls.map Except.ok) = .ok urls := by
  induction urls with
  | nil => rfl
  | cons u rest ih => rw [List.map_cons, processUploads, ih]; rfl

theorem latestBy_le (cs : List Contribution) : ∀ c : Contribution,
    c.updatedAt ≤ (latestBy c cs).updatedAt ∧
      ∀ x ∈ cs, x.updatedAt ≤ (latestBy c cs).updatedAt := by
  induction cs with
  | nil =>
    intro c
    exact ⟨Nat.le_refl _, by simp⟩
  | cons x xs ih =>
    intro c
    have hstep : latestBy c (x :: xs) =
        latestBy (if c.updatedAt < x.updatedAt then x else c) xs := rfl
    set d := if c.updatedAt < x.updatedAt then x else c with hd
    have hcd : c.updatedAt ≤ d.updatedAt := by
      rw [hd]
      by_cases hx : c.updatedAt < x.updatedAt
      · rw [if_pos hx]; exact Nat.le_of_lt hx
      · rw [if_neg hx]
    have hxd : x.updatedAt ≤ d.updatedAt := by
      rw [hd]
      by_cases hx : c.updatedAt < x.updatedAt
      · rw [if_pos hx]
      · rw [if_neg hx]; exact Nat.le_of_not_lt hx
    obtain ⟨h1, h2⟩ := ih d
    refine ⟨hstep ▸ Nat.le_trans hcd h1, ?_⟩
    intro y hy
    rcases List.mem_cons.mp hy with rfl | hy
    · exact hstep ▸ Nat.le_trans hxd h1
    · exact hstep ▸ h2 y hy

theorem latestBy_mem (cs : List Contribution) : ∀ c : Contribution,
    latestBy c cs = c ∨ latestBy c cs ∈ cs := by
  induction cs with
  | nil =>
    intro c
    exact Or.inl rfl
  | cons x xs ih =>
    intro c
    have hstep : latestBy c (x :: xs) =
        latestBy (if c.updatedAt < x.updatedAt then x else c) xs := rfl
    rcases ih (if c.updatedAt < x.updatedAt then x else c) with heq | hmem
    · by_cases hx : c.updatedAt < x.updatedAt
      · refine Or.inr ?_
        rw [hstep, heq, if_pos hx]
        exact List.mem_cons_self x xs
      · refine Or.inl ?_
        rw [hstep, heq, if_neg hx]
    · exact Or.inr (List.mem_cons_of_mem x (hstep ▸ hmem))

theorem eventApply_preserves_id (u : EventUpdateDoc) (e : Event) :
    (u.apply e).id = e.id := rfl

theorem hubApply_preserves_id (u : HubUpdateDoc) (d : HubDoc) :
    (u.apply d).id = d.id := rfl

theorem not_perm_cond {role ownerHex req : String}
    (hperm : role = "admin" ∨ ownerHex = req) :
    ¬(role ≠ "admin" ∧ ownerHex ≠ req) := by
  rcases hperm with h | h
  · exact fun hc => hc.1 h
  · exact fun hc => hc.2 h

theorem updateEvent_success (events : List Event) (role req : String) (oid : Oid)
    (raw : EventUpdateInput) (uploadUrls : List String)
    (pt : String → Option Time) (now : Time) (existing : Event)
    (hreq : req ≠ "")
    (hfind : events.find? (fun e => e.id == oid) = some existing)
    (hperm : role = "admin" ∨ existing.userId.hex = req)
    (hdl : raw.deadline = none)
    (hsz : (stageEventUpdate now raw none uploadUrls).size ≠ 1) :
    UpdateEvent events role req oid raw (uploadUrls.map Except.ok) pt now =
      ⟨200, none,
        updateFirstBy events (fun e => e.id == oid)
          (stageEventUpdate now raw none uploadUrls).apply,
        [.findOne "events", .updateOne "events", .findOne "events"]⟩ := by
  have hrefetch :
      (updateFirstBy events (fun e => e.id == oid)
          (stageEventUpdate now raw none uploadUrls).apply).find?
        (fun e => e.id == oid) =
      some ((stageEventUpdate now raw none uploadUrls).apply existing) := by
    rw [find?_updateFirstBy events (fun e => e.id == oid)
        (stageEventUpdate now raw none uploadUrls).apply (fun x hx => hx),
      hfind, Option.map_some']
  rw [UpdateEvent, if_neg hreq, hfind]
  simp only
  rw [if_neg (not_perm_cond hperm), hdl]
  simp only [deadlineStage]
  rw [processUploads_map_ok]
  simp only
  rw [if_neg hsz, hrefetch]

theorem updateHub_success (hubs : List HubDoc) (role req : String) (oid : Oid)
    (raw : HubUpdateInput) (uploadUrls : List String) (now : Time)
    (existing : HubDoc)
    (hreq : req ≠ "")
    (hfind : hubs.find? (fun h => h.id == oid) = some existing)
    (hperm : role = "admin" ∨ existing.userId.hex = req)
    (htitle : raw.title ≠ "")
    (hsz : (stageHubUpdate now raw uploadUrls).size ≠ 1) :
    UpdateHub hubs role req oid raw (uploadUrls.map Except.ok) now =
      ⟨200, none,
        updateFirstBy hubs (fun h => h.id == oid)
          (stageHubUpdate now raw uploadUrls).apply,
        [.findOne "hubs", .updateOne "hubs", .findOne "hubs"]⟩ := by
  have hrefetch :
      (updateFirstBy hubs (fun h => h.id == oid)
          (stageHubUpdate now raw uploadUrls).apply).find?
        (fun h => h.id == oid) =
      some ((stageHubUpdate now raw uploadUrls).apply existing) := by
    rw [find?_updateFirstBy hubs (fun h => h.id == oid)
        (stageHubUpdate now raw uploadUrls).apply (fun x hx => hx),
      hfind, Option.map_some']
  rw [UpdateHub, if_neg hreq, hfind]
  simp only
  rw [if_neg (not_perm_cond hperm), bindHubUpdateInput, if_neg htitle]
  simp only
  rw [processUploads_map_ok]
  simp only
  rw [if_neg hsz, hrefetch]

theorem favExists_eraseFirstBy_id (store : List Favorite) (u h : Oid)
    (fav : Favorite)
    (hids : store.Pairwise (fun a b => a.id ≠ b.id))
    (hpair : ∀ g ∈ store, (g.userId == u && g.hubId == h) = true → g.id = fav.id) :
    favExists (eraseFirstBy store (fun f => f.id == fav.id)) u h = false := by
  induction store with
  | nil => rfl
  | cons a t ih =>
    obtain ⟨ha, ht⟩ := List.pairwise_cons.mp hids
    by_cases hpa : (a.id == fav.id) = true
    · rw [eraseFirstBy, if_pos hpa]
      rw [favExists, List.any_eq_false]
      intro g hg
      intro hgpair
      have hgid : g.id = fav.id := hpair g (List.mem_cons_of_mem a hg) hgpair
      have haid : a.id = fav.id := by simpa using hpa
      exact (ha g hg) (haid.trans hgid.symm)
    · rw [eraseFirstBy, if_neg hpa]
      have hapair : (a.userId == u && a.hubId == h) = false := by
        by_contra hcon
        have : (a.userId == u && a.hubId == h) = true := by
          cases hx : (a.userId == u && a.hubId == h)
          · exact absurd hx hcon
          · rfl
        exact hpa (by simpa using hpair a (List.mem_cons_self a t) this)
      rw [favExists, List.any_cons, hapair, Bool.false_or]
      exact ih ht (fun g hg hp => hpair g (List.mem_cons_of_mem a hg) hp)

/-! ## Claims -/

/-- A stored hub whose coordinates hold lat 1 / lng 2, used to exercise
the coordinate branch of `UpdateHub`. -/
def c1HubBefore : HubDoc :=
  { id := ⟨1⟩, userId := ⟨2⟩, title := "Garden Hub", description := ""
    coordinates := { lat := some 1, lng := some 2 }, location := ""
    targetAmount := 0, images := [], createdAt := 0, updatedAt := 0 }

/-- An update payload supplying exactly one coordinate axis (lat 5). -/
def c1Request : HubUpdateInput :=
  { title := "Garden Hub", lat := some 5 }

/-- C1: evaluation at the failing input. The claim says an update that
supplies only `lat` leaves the stored `lng` at its previous value (2);
the code stages the partial subdocument under the whole key
"coordinates", which `$set` replaces wholesale, so after the update the
stored `lng` key is absent and decodes to 0, not 2. -/
theorem c1_hub_coordinates_replaced_not_merged :
    (UpdateHub [c1HubBefore] "admin" "7" ⟨1⟩ c1Request [] 10).status = 200 ∧
    (UpdateHub [c1HubBefore] "admin" "7" ⟨1⟩ c1Request [] 10).store =
      [{ c1HubBefore with updatedAt := 10,
                          coordinates := { lat := some 5, lng := none } }] ∧
    c1HubBefore.decode.coordinates.lng = 2 ∧
    ((UpdateHub [c1HubBefore] "admin" "7" ⟨1⟩ c1Request [] 10).store.map
        (fun d => d.decode.coordinates.lng)) = [0] := by
  refine ⟨rfl, rfl, rfl, rfl⟩

/-- C7: evaluation at the failing input. The claim (and the function's
own comments) say the public ID of the example URL is "events/abc123";
the code checks the second-to-last path segment for the "v" version
marker (which is the folder "events" here, so nothing is dropped) and
joins from index 3, which keeps the "upload" segment, producing
"upload/v1234567890/events/abc123". -/
theorem c7_extract_public_id_eval :
    extractPublicID
        "https://res.cloudinary.com/demo/image/upload/v1234567890/events/abc123.jpg"
      = .ok "upload/v1234567890/events/abc123" ∧
    "upload/v1234567890/events/abc123" ≠ "events/abc123" := by
  exact ⟨rfl, by decide⟩

/-- A contribution update payload whose only populated field is a
negative amount. -/
def c8Input : ContributionInput :=
  { amount := -5 }

/-- C8 counterexample: the claim says every supplied amount value,
including a non-positive one, is staged into the update set; at
amount = -5 the staged document has no amount key at all (and, with
nothing else populated, the whole request is rejected as having no
fields), so the claim as stated is false. -/
theorem c8_counterexample_nonpositive_amount_not_staged :
    (stageContributionUpdate 0 c8Input).amount = none ∧
    UpdateContribution [] ⟨1⟩ c8Input 0 =
      ⟨400, some "no fields to update", [], []⟩ := by
  exact ⟨rfl, rfl⟩

/-- C8 amended: a contribution update stages the amount key iff the
supplied value is strictly positive; a non-positive supplied amount is
treated as absent (silently ignored, never an error of its own), so an
update can never make a stored amount non-positive, and a positive
supplied amount is staged unvalidated further. -/
theorem c8_amended_amount_staged_iff_positive (inp : ContributionInput)
    (now : Time) (c : Contribution) :
    ((stageContributionUpdate now inp).amount =
      if 0 < inp.amount then some inp.amount else none) ∧
    (inp.amount ≤ 0 → ((stageContributionUpdate now inp).apply c).amount = c.amount) ∧
    (0 < inp.amount → ((stageContributionUpdate now inp).apply c).amount = inp.amount) := by
  refine ⟨rfl, ?_, ?_⟩
  · intro hle
    have hnot : ¬(inp.amount > 0) := not_lt.mpr hle
    simp [stageContributionUpdate, ContributionUpdateDoc.apply, hnot]
  · intro hpos
    simp [stageContributionUpdate, ContributionUpdateDoc.apply, hpos]

/-- C8 amended, witness: at amount -5 the stored amount 40 survives the
update; at amount 7 the stored amount becomes 7. -/
theorem c8_amended_amount_staged_iff_positive_witness :
    ((-5 : Int) ≤ 0 ∧
      ((stageContributionUpdate 3 { amount := -5 }).apply
        { id := ⟨1⟩, eventId := ⟨2⟩, contributorName := "n", contributorContact := ""
          amount := 40, currency := "KES", method := "MPESA", paymentRef := ""
          status := "PENDING", receiptURL := "", createdAt := 0, updatedAt := 0 }).amount = 40) ∧
    ((0 : Int) < 7 ∧
      ((stageContributionUpdate 3 { amount := 7 }).apply
        { id := ⟨1⟩, eventId := ⟨2⟩, contributorName := "n", contributorContact := ""
          amount := 40, currency := "KES", method := "MPESA", paymentRef := ""
          status := "PENDING", receiptURL := "", createdAt := 0, updatedAt := 0 }).amount = 7) := by
  refine ⟨⟨by decide, ?_⟩, ⟨by decide, ?_⟩⟩
  · exact (c8_amended_amount_staged_iff_positive { amount := -5 } 3 _).2.1 (by decide)
  · exact (c8_amended_amount_staged_iff_positive { amount := 7 } 3 _).2.2 (by decide)

/-- A stored hub used to exercise the empty-payload path of `UpdateHub`. -/
def c2Hub : HubDoc :=
  { id := ⟨1⟩, userId := ⟨2⟩, title := "h", description := ""
    coordinates := {}, location := "", targetAmount := 0, images := []
    createdAt := 0, updatedAt := 0 }

/-- C2 counterexample: the claim says a Hub update whose payload has
every updatable field absent is rejected with the error
"no fields to update"; in fact `UpdateHub`'s bind struct requires the
title, so an all-default payload (sent by the owner or an admin to an
existing hub) is rejected at binding with the required-title message,
which differs from "no fields to update". -/
theorem c2_counterexample_hub_empty_update_bind_error :
    UpdateHub [c2Hub] "admin" "7" ⟨1⟩ {} [] 5 =
      ⟨400, some requiredTitleErr, [c2Hub], [.findOne "hubs"]⟩ ∧
    requiredTitleErr ≠ "no fields to update" := by
  exact ⟨rfl, by decide⟩

/-- C2 amended: an update payload with every updatable field
absent or default is rejected with 400 and the stored collection is
left unchanged with no store write issued, but the shape differs per
resource: Contribution rejects with "no fields to update" before any
store call at all; Event rejects with "no fields to update" after its
existence read (and with the ownership check already passed); Hub
rejects earlier, at binding, with the required-title error, so its
"no fields to update" branch never fires for such payloads. -/
theorem c2_amended_no_field_rejection :
    (∀ (store : List Contribution) (oid : Oid) (now : Time),
      UpdateContribution store oid {} now =
        ⟨400, some "no fields to update", store, []⟩) ∧
    (∀ (events : List Event) (role req : String) (oid : Oid)
        (pt : String → Option Time) (now : Time) (existing : Event),
      req ≠ "" →
      events.find? (fun e => e.id == oid) = some existing →
      (role = "admin" ∨ existing.userId.hex = req) →
      UpdateEvent events role req oid {} [] pt now =
        ⟨400, some "no fields to update", events, [.findOne "events"]⟩) ∧
    (∀ (hubs : List HubDoc) (role req : String) (oid : Oid)
        (uploads : List (Except String String)) (now : Time) (existing : HubDoc),
      req ≠ "" →
      hubs.find? (fun h => h.id == oid) = some existing →
      (role = "admin" ∨ existing.userId.hex = req) →
      UpdateHub hubs role req oid {} uploads now =
        ⟨400, some requiredTitleErr, hubs, [.findOne "hubs"]⟩) := by
  refine ⟨?_, ?_, ?_⟩
  · intro store oid now
    rfl
  · intro events role req oid pt now existing hreq hfind hperm
    rw [UpdateEvent, if_neg hreq, hfind]
    simp only
    rw [if_neg (not_perm_cond hperm)]
    rfl
  · intro hubs role req oid uploads now existing hreq hfind hperm
    rw [UpdateHub, if_neg hreq, hfind]
    simp only
    rw [if_neg (not_perm_cond hperm)]
    rfl

/-- A stored event used in witnesses. -/
def wEvent : Event :=
  { id := ⟨1⟩, userId := ⟨2⟩, title := "t", description := "", location := ""
    targetAmount := 0, deadline := none, status := "ACTIVE", images := ["A"]
    createdAt := 0, updatedAt := 0 }

/-- C2 amended, witness: concrete all-default updates against a stored
event (by its owner "2") and a stored hub (by an admin). -/
theorem c2_amended_no_field_rejection_witness :
    (UpdateContribution [] ⟨1⟩ {} 5 =
      ⟨400, some "no fields to update", [], []⟩) ∧
    (UpdateEvent [wEvent] "user" "2" ⟨1⟩ {} [] (fun _ => none) 5 =
      ⟨400, some "no fields to update", [wEvent], [.findOne "events"]⟩) ∧
    (UpdateHub [c2Hub] "admin" "7" ⟨1⟩ {} [] 5 =
      ⟨400, some requiredTitleErr, [c2Hub], [.findOne "hubs"]⟩) := by
  refine ⟨c2_amended_no_field_rejection.1 [] ⟨1⟩ 5, ?_, ?_⟩
  · exact c2_amended_no_field_rejection.2.1 [wEvent] "user" "2" ⟨1⟩ (fun _ => none) 5
      wEvent (by decide) rfl (Or.inr (by decide))
  · exact c2_amended_no_field_rejection.2.2 [c2Hub] "admin" "7" ⟨1⟩ [] 5
      c2Hub (by decide) rfl (Or.inl rfl)

/-- C3: for every non-empty list result, the ETag and Last-Modified of
`ListContributions` are computed from an element whose `updated_at` is
maximal over the result set; a non-empty `If-None-Match` equal to that
fingerprint yields 304 with no body and no headers, and otherwise the
response carries the ETag and Last-Modified headers alongside the full
body. -/
theorem c3_list_freshness (cs : List Contribution) (inm : String)
    (hne : cs ≠ []) :
    ∃ m ∈ cs, (∀ x ∈ cs, x.updatedAt ≤ m.updatedAt) ∧
      ((inm ≠ "" ∧ inm = GenerateETag m.id m.updatedAt) →
        ListContributions cs inm = ⟨304, none, none, none⟩) ∧
      (¬(inm ≠ "" ∧ inm = GenerateETag m.id m.updatedAt) →
        ListContributions cs inm =
          ⟨200, some cs, some (GenerateETag m.id m.updatedAt),
            some (formatHTTPDate m.updatedAt)⟩) := by
  match cs, hne with
  | c :: rest, _ =>
    refine ⟨latestBy c (c :: rest), ?_, ?_, ?_, ?_⟩
    · rcases latestBy_mem (c :: rest) c with heq | hmem
      · rw [heq]
        exact List.mem_cons_self c rest
      · exact hmem
    · exact (latestBy_le (c :: rest) c).2
    · intro hmatch
      simp only [ListContributions]
      rw [if_pos hmatch]
    · intro hnm
      simp only [ListContributions]
      rw [if_neg hnm]

/-- A concrete contribution used in the C3 witness. -/
def c3Contribution : Contribution :=
  { id := ⟨1⟩, eventId := ⟨2⟩, contributorName := "a", contributorContact := ""
    amount := 5, currency := "KES", method := "MPESA", paymentRef := ""
    status := "PENDING", receiptURL := "", createdAt := 0, updatedAt := 4 }

/-- C3 witness: the freshness contract instantiated on a concrete
one-element result set with no `If-None-Match` header. -/
theorem c3_list_freshness_witness :
    [c3Contribution] ≠ [] ∧
    ∃ m ∈ [c3Contribution], (∀ x ∈ [c3Contribution], x.updatedAt ≤ m.updatedAt) ∧
      (("" ≠ "" ∧ "" = GenerateETag m.id m.updatedAt) →
        ListContributions [c3Contribution] "" = ⟨304, none, none, none⟩) ∧
      (¬("" ≠ "" ∧ "" = GenerateETag m.id m.updatedAt) →
        ListContributions [c3Contribution] "" =
          ⟨200, some [c3Contribution], some (GenerateETag m.id m.updatedAt),
            some (formatHTTPDate m.updatedAt)⟩) := by
  exact ⟨by decide, c3_list_freshness [c3Contribution] "" (by decide)⟩

theorem find?_update_event (events : List Event) (oid : Oid)
    (u : EventUpdateDoc) (existing : Event)
    (hfind : events.find? (fun e => e.id == oid) = some existing) :
    (updateFirstBy events (fun e => e.id == oid) u.apply).find?
      (fun e => e.id == oid) = some (u.apply existing) := by
  rw [find?_updateFirstBy events (fun e => e.id == oid) u.apply (fun x hx => hx),
    hfind, Option.map_some']

theorem find?_update_hub (hubs : List HubDoc) (oid : Oid)
    (u : HubUpdateDoc) (existing : HubDoc)
    (hfind : hubs.find? (fun h => h.id == oid) = some existing) :
    (updateFirstBy hubs (fun h => h.id == oid) u.apply).find?
      (fun h => h.id == oid) = some (u.apply existing) := by
  rw [find?_updateFirstBy hubs (fun h => h.id == oid) u.apply (fun x hx => hx),
    hfind, Option.map_some']

/-- C4: for Event and Hub updates that succeed, the staged images field
equals the caller-supplied retained-URL list concatenated with the URLs
of the newly uploaded files, in that order; when the caller supplies
neither retained URLs nor new files, no images key is staged and the
stored image list survives the update untouched. -/
theorem c4_image_append_semantics :
    (∀ (events : List Event) (role req : String) (oid : Oid)
        (raw : EventUpdateInput) (urls R : List String)
        (pt : String → Option Time) (now : Time) (existing : Event),
      req ≠ "" →
      events.find? (fun e => e.id == oid) = some existing →
      (role = "admin" ∨ existing.userId.hex = req) →
      raw.deadline = none →
      raw.images = some R →
      ∃ e', (UpdateEvent events role req oid raw (urls.map Except.ok) pt now).store.find?
            (fun e => e.id == oid) = some e' ∧
        e'.images = R ++ urls ∧
        (UpdateEvent events role req oid raw (urls.map Except.ok) pt now).status = 200) ∧
    (∀ (events : List Event) (role req : String) (oid : Oid)
        (raw : EventUpdateInput) (pt : String → Option Time) (now : Time)
        (existing : Event),
      req ≠ "" →
      events.find? (fun e => e.id == oid) = some existing →
      (role = "admin" ∨ existing.userId.hex = req) →
      raw.deadline = none →
      raw.images = none →
      raw.title ≠ "" →
      ∃ e', (UpdateEvent events role req oid raw [] pt now).store.find?
            (fun e => e.id == oid) = some e' ∧
        e'.images = existing.images ∧
        (UpdateEvent events role req oid raw [] pt now).status = 200) ∧
    (∀ (hubs : List HubDoc) (role req : String) (oid : Oid)
        (raw : HubUpdateInput) (urls R : List String) (now : Time)
        (existing : HubDoc),
      req ≠ "" →
      hubs.find? (fun h => h.id == oid) = some existing →
      (role = "admin" ∨ existing.userId.hex = req) →
      raw.title ≠ "" →
      raw.images = some R →
      ∃ h', (UpdateHub hubs role req oid raw (urls.map Except.ok) now).store.find?
            (fun h => h.id == oid) = some h' ∧
        h'.images = R ++ urls ∧
        (UpdateHub hubs role req oid raw (urls.map Except.ok) now).status = 200) ∧
    (∀ (hubs : List HubDoc) (role req : String) (oid : Oid)
        (raw : HubUpdateInput) (now : Time) (existing : HubDoc),
      req ≠ "" →
      hubs.find? (fun h => h.id == oid) = some existing →
      (role = "admin" ∨ existing.userId.hex = req) →
      raw.title ≠ "" →
      raw.images = none →
      ∃ h', (UpdateHub hubs role req oid raw [] now).store.find?
            (fun h => h.id == oid) = some h' ∧
        h'.images = existing.images ∧
        (UpdateHub hubs role req oid raw [] now).status = 200) := by
  refine ⟨?_, ?_, ?_, ?_⟩
  · intro events role req oid raw urls R pt now existing hreq hfind hperm hdl him
    have himg : (stageEventUpdate now raw none urls).images = some (R ++ urls) := by
      simp [stageEventUpdate, him]
    have hsz : (stageEventUpdate now raw none urls).size ≠ 1 := by
      have h1 : optCount (stageEventUpdate now raw none urls).images = 1 := by
        rw [himg]; rfl
      simp only [EventUpdateDoc.size]
      rw [h1]
      omega
    rw [updateEvent_success events role req oid raw urls pt now existing
      hreq hfind hperm hdl hsz]
    refine ⟨(stageEventUpdate now raw none urls).apply existing, ?_, ?_, rfl⟩
    · exact find?_update_event events oid _ existing hfind
    · simp [EventUpdateDoc.apply, himg]
  · intro events role req oid raw pt now existing hreq hfind hperm hdl him htitle
    have himg : (stageEventUpdate now raw none []).images = none := by
      simp [stageEventUpdate, him]
    have hsz : (stageEventUpdate now raw none []).size ≠ 1 := by
      have h1 : optCount (stageEventUpdate now raw none []).title = 1 := by
        simp [stageEventUpdate, htitle, optCount]
      simp only [EventUpdateDoc.size]
      rw [h1]
      omega
    have hsucc := updateEvent_success events role req oid raw [] pt now existing
      hreq hfind hperm hdl hsz
    simp only [List.map_nil] at hsucc
    rw [hsucc]
    refine ⟨(stageEventUpdate now raw none []).apply existing, ?_, ?_, rfl⟩
    · exact find?_update_event events oid _ existing hfind
    · simp [EventUpdateDoc.apply, himg]
  · intro hubs role req oid raw urls R now existing hreq hfind hperm htitle him
    have himg : (stageHubUpdate now raw urls).images = some (R ++ urls) := by
      simp [stageHubUpdate, him]
    have hsz : (stageHubUpdate now raw urls).size ≠ 1 := by
      have h1 : optCount (stageHubUpdate now raw urls).images = 1 := by
        rw [himg]; rfl
      simp only [HubUpdateDoc.size]
      rw [h1]
      omega
    rw [updateHub_success hubs role req oid raw urls now existing
      hreq hfind hperm htitle hsz]
    refine ⟨(stageHubUpdate now raw urls).apply existing, ?_, ?_, rfl⟩
    · exact find?_update_hub hubs oid _ existing hfind
    · simp [HubUpdateDoc.apply, himg]
  · intro hubs role req oid raw now existing hreq hfind hperm htitle him
    have himg : (stageHubUpdate now raw []).images = none := by
      simp [stageHubUpdate, him]
    have hsz : (stageHubUpdate now raw []).size ≠ 1 := by
      have h1 : optCount (stageHubUpdate now raw []).title = 1 := by
        simp [stageHubUpdate, htitle, optCount]
      simp only [HubUpdateDoc.size]
      rw [h1]
      omega
    have hsucc := updateHub_success hubs role req oid raw [] now existing
      hreq hfind hperm htitle hsz
    simp only [List.map_nil] at hsucc
    rw [hsucc]
    refine ⟨(stageHubUpdate now raw []).apply existing, ?_, ?_, rfl⟩
    · exact find?_update_hub hubs oid _ existing hfind
    · simp [HubUpdateDoc.apply, himg]

/-- A stored hub with images [A, B], used by the C4 witness. -/
def c4Hub : HubDoc :=
  { id := ⟨1⟩, userId := ⟨2⟩, title := "h", description := ""
    coordinates := {}, location := "", targetAmount := 0
    images := ["A", "B"], createdAt := 0, updatedAt := 0 }

/-- C4 witness: the spec scenario — stored images [A, B], update
retaining [B] with a new upload producing C, yields stored [B, C]. -/
theorem c4_image_append_semantics_witness :
    ∃ h', (UpdateHub [c4Hub] "admin" "7" ⟨1⟩
          { title := "h", images := some ["B"] }
          (["C"].map Except.ok) 9).store.find?
        (fun h => h.id == (⟨1⟩ : Oid)) = some h' ∧
      h'.images = ["B"] ++ ["C"] ∧
      (UpdateHub [c4Hub] "admin" "7" ⟨1⟩
          { title := "h", images := some ["B"] }
          (["C"].map Except.ok) 9).status = 200 :=
  c4_image_append_semantics.2.2.1 [c4Hub] "admin" "7" ⟨1⟩
    { title := "h", images := some ["B"] } ["C"] ["B"] 9 c4Hub
    (by decide) rfl (Or.inl rfl) (by decide) rfl

/-- C5: a non-owner, non-admin authenticated caller attempting
update/delete on an Event or Hub receives Forbidden regardless of the
payload, with the store unchanged and no store write issued; a caller
with role "admin" is never answered with Forbidden (the ownership check
is bypassed). -/
theorem c5_ownership_enforcement :
    (∀ (events : List Event) (role req : String) (oid : Oid)
        (raw : EventUpdateInput) (uploads : List (Except String String))
        (pt : String → Option Time) (now : Time) (existing : Event),
      req ≠ "" →
      events.find? (fun e => e.id == oid) = some existing →
      role ≠ "admin" → existing.userId.hex ≠ req →
      UpdateEvent events role req oid raw uploads pt now =
        ⟨403, some "Access denied", events, [.findOne "events"]⟩) ∧
    (∀ (events : List Event) (role req : String) (oid : Oid) (existing : Event),
      req ≠ "" →
      events.find? (fun e => e.id == oid) = some existing →
      role ≠ "admin" → existing.userId.hex ≠ req →
      DeleteEvent events role req oid =
        ⟨403, some "access denied", events, [.findOne "events"]⟩) ∧
    (∀ (hubs : List HubDoc) (role req : String) (oid : Oid)
        (raw : HubUpdateInput) (uploads : List (Except String String))
        (now : Time) (existing : HubDoc),
      req ≠ "" →
      hubs.find? (fun h => h.id == oid) = some existing →
      role ≠ "admin" → existing.userId.hex ≠ req →
      UpdateHub hubs role req oid raw uploads now =
        ⟨403, some "Access denied", hubs, [.findOne "hubs"]⟩) ∧
    (∀ (hubs : List HubDoc) (role req : String) (oid : Oid) (existing : HubDoc),
      req ≠ "" →
      hubs.find? (fun h => h.id == oid) = some existing →
      role ≠ "admin" → existing.userId.hex ≠ req →
      DeleteHub hubs role req oid =
        ⟨403, some "access denied", hubs, [.findOne "hubs"]⟩) ∧
    (∀ (events : List Event) (req : String) (oid : Oid)
        (raw : EventUpdateInput) (uploads : List (Except String String))
        (pt : String → Option Time) (now : Time),
      (UpdateEvent events "admin" req oid raw uploads pt now).status ≠ 403) ∧
    (∀ (events : List Event) (req : String) (oid : Oid),
      (DeleteEvent events "admin" req oid).status ≠ 403) ∧
    (∀ (hubs : List HubDoc) (req : String) (oid : Oid)
        (raw : HubUpdateInput) (uploads : List (Except String String))
        (now : Time),
      (UpdateHub hubs "admin" req oid raw uploads now).status ≠ 403) ∧
    (∀ (hubs : List HubDoc) (req : String) (oid : Oid),
      (DeleteHub hubs "admin" req oid).status ≠ 403) := by
  refine ⟨?_, ?_, ?_, ?_, ?_, ?_, ?_, ?_⟩
  · intro events role req oid raw uploads pt now existing hreq hfind hrole hown
    rw [UpdateEvent, if_neg hreq, hfind]
    simp only
    rw [if_pos ⟨hrole, hown⟩]
  · intro events role req oid existing hreq hfind hrole hown
    rw [DeleteEvent, if_neg hreq, hfind]
    simp only
    rw [if_pos ⟨hrole, hown⟩]
  · intro hubs role req oid raw uploads now existing hreq hfind hrole hown
    rw [UpdateHub, if_neg hreq, hfind]
    simp only
    rw [if_pos ⟨hrole, hown⟩]
  · intro hubs role req oid existing hreq hfind hrole hown
    rw [DeleteHub, if_neg hreq, hfind]
    simp only
    rw [if_pos ⟨hrole, hown⟩]
  · intro events req oid raw uploads pt now
    rw [UpdateEvent]
    split
    · simp
    · split
      · simp
      · rw [if_neg (by simp)]
        split
        · simp
        · split
          · simp
          · dsimp only
            split
            · simp
            · split
              · simp
              · simp
  · intro events req oid
    rw [DeleteEvent]
    split
    · simp
    · split
      · simp
      · rw [if_neg (by simp)]
        simp
  · intro hubs req oid raw uploads now
    rw [UpdateHub]
    split
    · simp
    · split
      · simp
      · rw [if_neg (by simp)]
        split
        · simp
        · split
          · simp
          · dsimp only
            split
            · simp
            · split
              · simp
              · simp
  · intro hubs req oid
    rw [DeleteHub]
    split
    · simp
    · split
      · simp
      · rw [if_neg (by simp)]
        simp

/-- C5 witness: a non-owner non-admin caller ("9", role "user") is
Forbidden on a concrete event update; an admin deleting a hub they do
not own is not Forbidden. -/
theorem c5_ownership_enforcement_witness :
    (UpdateEvent [wEvent] "user" "9" ⟨1⟩ {} [] (fun _ => none) 5 =
      ⟨403, some "Access denied", [wEvent], [.findOne "events"]⟩) ∧
    (DeleteHub [c2Hub] "admin" "9" ⟨1⟩).status ≠ 403 := by
  exact ⟨c5_ownership_enforcement.1 [wEvent] "user" "9" ⟨1⟩ {} []
      (fun _ => none) 5 wEvent (by decide) rfl (by decide) (by decide),
    c5_ownership_enforcement.2.2.2.2.2.2.2 [c2Hub] "9" ⟨1⟩⟩

/-- C6: creating a Contribution with a non-positive amount against an
existing event fails with 400 "amount must be greater than 0"; creating
one referencing a non-existent event fails with 400 "event not found";
in both cases nothing is inserted — the contributions store is unchanged
and the call trace holds only the event existence read. -/
theorem c6_contribution_create_validation :
    (∀ (events : List Event) (store : List Contribution)
        (inp : ContributionInput) (newId : Oid) (now : Time) (ev : Event),
      inp.eventId.isZero = false →
      events.find? (fun e => e.id == inp.eventId) = some ev →
      inp.amount ≤ 0 →
      CreateContribution events store inp newId now =
        ⟨400, some "amount must be greater than 0", store, [.findOne "events"]⟩) ∧
    (∀ (events : List Event) (store : List Contribution)
        (inp : ContributionInput) (newId : Oid) (now : Time),
      inp.eventId.isZero = false →
      events.find? (fun e => e.id == inp.eventId) = none →
      CreateContribution events store inp newId now =
        ⟨400, some "event not found", store, [.findOne "events"]⟩) := by
  constructor
  · intro events store inp newId now ev hz hfind hle
    rw [CreateContribution, if_neg (by simp [hz]), hfind]
    simp only
    rw [if_pos hle]
  · intro events store inp newId now hz hfind
    rw [CreateContribution, if_neg (by simp [hz]), hfind]

/-- C6 witness: amount -5 against the stored event is rejected with the
amount error; amount 100 against a missing event id is rejected with
"event not found"; both leave the contributions store empty. -/
theorem c6_contribution_create_validation_witness :
    (CreateContribution [wEvent] [] { eventId := ⟨1⟩, amount := -5 } ⟨9⟩ 5 =
      ⟨400, some "amount must be greater than 0", [], [.findOne "events"]⟩) ∧
    (CreateContribution [wEvent] [] { eventId := ⟨3⟩, amount := 100 } ⟨9⟩ 5 =
      ⟨400, some "event not found", [], [.findOne "events"]⟩) := by
  exact ⟨c6_contribution_create_validation.1 [wEvent] []
      { eventId := ⟨1⟩, amount := -5 } ⟨9⟩ 5 wEvent (by decide) rfl (by decide),
    c6_contribution_create_validation.2 [wEvent] []
      { eventId := ⟨3⟩, amount := 100 } ⟨9⟩ 5 (by decide) rfl⟩

/-- C9: on both hub read paths, each attached review's author name is
the resolved user's display name when the user record exists and the
sentinel "Unknown" (list) or "Unknown User" (single get) when it does
not; this holds for every users collection (including one where every
lookup fails), and the request still succeeds with the hub body. -/
theorem c9_review_name_sentinels :
    (∀ (hubs : List HubDoc) (reviews : List Review) (users : List User)
        (favorites : List Favorite) (uid : Oid) (q : String),
      (ListHubs hubs reviews users favorites (some uid) q).status = 200 ∧
      ∃ body, (ListHubs hubs reviews users favorites (some uid) q).body = some body ∧
        ∀ hb ∈ body, ∀ rr ∈ hb.reviews,
          rr.userName =
            ((users.find? (fun u => u.id == rr.userId)).map User.name).getD "Unknown") ∧
    (∀ (hubs : List HubDoc) (reviews : List Review) (users : List User)
        (favorites : List Favorite) (uid? : Option Oid) (hubId : Oid) (d : HubDoc),
      hubs.find? (fun h => h.id == hubId) = some d →
      (GetHub hubs reviews users favorites uid? hubId "").status = 200 ∧
      (GetHub hubs reviews users favorites uid? hubId "").hub = some d.decode ∧
      (GetHub hubs reviews users favorites uid? hubId "").reviews =
        some ((reviews.filter (fun r => r.hubId == hubId)).map
          (enrichGetHubReview users)) ∧
      ∀ r : Review, (enrichGetHubReview users r).userName =
        ((users.find? (fun u => u.id == r.userId)).map User.name).getD
          "Unknown User") := by
  constructor
  · intro hubs reviews users favorites uid q
    refine ⟨rfl, _, rfl, ?_⟩
    intro hb hmem rr hrr
    simp only [List.mem_map] at hmem
    obtain ⟨d, hd, rfl⟩ := hmem
    simp only [List.mem_map] at hrr
    obtain ⟨rv, hrv, rfl⟩ := hrr
    show (enrichReview users rv).userName =
      ((users.find? (fun u => u.id == rv.userId)).map User.name).getD "Unknown"
    cases hf : users.find? (fun u => u.id == rv.userId) with
    | none => simp [enrichReview, hf]
    | some u => simp [enrichReview, hf]
  · intro hubs reviews users favorites uid? hubId d hfind
    have hred : GetHub hubs reviews users favorites uid? hubId "" =
        ⟨200, some d.decode,
          some ((reviews.filter (fun r => r.hubId == hubId)).map
            (enrichGetHubReview users)),
          some (match uid? with
            | some userId =>
              (favorites.countP (fun f => f.hubId == hubId && f.userId == userId)) > 0
            | none => false),
          some (GenerateETag d.decode.id d.decode.updatedAt)⟩ := by
      rw [GetHub.eq_def, hfind]
      simp only
      rw [if_neg (by simp)]
    refine ⟨by rw [hred], by rw [hred], by rw [hred], ?_⟩
    intro r
    cases hf : users.find? (fun u => u.id == r.userId) with
    | none => simp [enrichGetHubReview, hf]
    | some u => simp [enrichGetHubReview, hf]

/-- A review used by the C9 witness. -/
def c9Review : Review :=
  { id := ⟨10⟩, userId := ⟨20⟩, hubId := ⟨1⟩, rating := 4, comment := "nice"
    createdAt := 0, updatedAt := 0 }

/-- C9 witness: a concrete hub fetch against an empty users collection
(so every lookup fails) still succeeds with the hub body, and the
enrichment produces the sentinel name. -/
theorem c9_review_name_sentinels_witness :
    (GetHub [c2Hub] [c9Review] [] [] none ⟨1⟩ "").status = 200 ∧
    (GetHub [c2Hub] [c9Review] [] [] none ⟨1⟩ "").hub = some c2Hub.decode ∧
    (GetHub [c2Hub] [c9Review] [] [] none ⟨1⟩ "").reviews =
      some (([c9Review].filter (fun r => r.hubId == (⟨1⟩ : Oid))).map
        (enrichGetHubReview [])) ∧
    ∀ r : Review, (enrichGetHubReview [] r).userName =
      ((([] : List User).find? (fun u => u.id == r.userId)).map User.name).getD
        "Unknown User" :=
  c9_review_name_sentinels.2 [c2Hub] [c9Review] [] [] none ⟨1⟩ c2Hub rfl

/-- C10: `ToggleFavorite` reports a boolean equal to the post-state
existence of a favorite record for the (user, hub) pair, and applying
it twice restores the original favorited state. The hypotheses are the
store invariants MongoDB and the endpoint itself maintain: `_id` values
are pairwise distinct, at most one favorite record exists for the pair
(all pair records share one `_id`), and the freshly generated `_id` is
not already present. -/
theorem c10_toggle_favorite_involution (store : List Favorite)
    (u h newId newId2 : Oid) (now now2 : Time)
    (hids : store.Pairwise (fun a b => a.id ≠ b.id))
    (hpair : ∀ f ∈ store, ∀ g ∈ store,
      (f.userId == u && f.hubId == h) = true →
      (g.userId == u && g.hubId == h) = true → f.id = g.id)
    (hfresh : ∀ f ∈ store, f.id ≠ newId) :
    ((ToggleFavorite store u h newId now).favorite =
      some (favExists (ToggleFavorite store u h newId now).store u h)) ∧
    (favExists
        (ToggleFavorite (ToggleFavorite store u h newId now).store
          u h newId2 now2).store u h
      = favExists store u h) := by
  cases hfind : store.find? (fun f => f.userId == u && f.hubId == h) with
  | some fav =>
    have hfav_mem : fav ∈ store := List.mem_of_find?_eq_some hfind
    have hfav_p := List.find?_some hfind
    have hgone : favExists (eraseFirstBy store (fun f => f.id == fav.id)) u h
        = false :=
      favExists_eraseFirstBy_id store u h fav hids
        (fun g hg hgp => hpair g hg fav hfav_mem hgp hfav_p)
    have hfind2 : (eraseFirstBy store (fun f => f.id == fav.id)).find?
        (fun f => f.userId == u && f.hubId == h) = none := by
      rw [List.find?_eq_none]
      intro x hx
      exact List.any_eq_false.mp hgone x hx
    constructor
    · simp only [ToggleFavorite, hfind, hgone]
    · simp only [ToggleFavorite, hfind, hfind2]
      have h1 : favExists (eraseFirstBy store (fun f => f.id == fav.id) ++
          [(⟨newId2, u, h, now2⟩ : Favorite)]) u h = true := by
        rw [favExists, List.any_eq_true]
        exact ⟨⟨newId2, u, h, now2⟩,
          List.mem_append_right _ (List.mem_singleton.mpr rfl), by simp⟩
      have h2 : favExists store u h = true := by
        rw [favExists, List.any_eq_true]
        exact ⟨fav, hfav_mem, hfav_p⟩
      rw [h1, h2]
  | none =>
    have hins : favExists (store ++ [(⟨newId, u, h, now⟩ : Favorite)]) u h
        = true := by
      rw [favExists, List.any_eq_true]
      exact ⟨⟨newId, u, h, now⟩,
        List.mem_append_right _ (List.mem_singleton.mpr rfl), by simp⟩
    have hfindnew : (store ++ [(⟨newId, u, h, now⟩ : Favorite)]).find?
        (fun f => f.userId == u && f.hubId == h) =
        some (⟨newId, u, h, now⟩ : Favorite) := by
      rw [find?_append_of_none store _ _ hfind]
      exact List.find?_cons_of_pos _ (by simp)
    have hnone : favExists store u h = false := by
      rw [favExists, List.any_eq_false]
      intro x hx
      exact List.find?_eq_none.mp hfind x hx
    constructor
    · simp only [ToggleFavorite, hfind, hins]
    · simp only [ToggleFavorite, hfind, hfindnew]
      have hside : ∀ x ∈ store,
          (x.id == (⟨newId, u, h, now⟩ : Favorite).id) = false := by
        intro x hx
        simp [hfresh x hx]
      rw [eraseFirstBy_append_no_match store [(⟨newId, u, h, now⟩ : Favorite)]
        _ hside]
      have htail : eraseFirstBy [(⟨newId, u, h, now⟩ : Favorite)]
          (fun f => f.id == (⟨newId, u, h, now⟩ : Favorite).id) = [] := by
        simp [eraseFirstBy]
      rw [htail, List.append_nil, hnone]

/-- The single stored favorite of the C10 witness. -/
def c10Fav : Favorite :=
  { id := ⟨5⟩, userId := ⟨1⟩, hubId := ⟨2⟩, createdAt := 0 }

/-- C10 witness: on a store holding one favorite for (user 1, hub 2),
the toggle reports false and the post-state has no record; toggling
again restores the favorited state. -/
theorem c10_toggle_favorite_involution_witness :
    ((ToggleFavorite [c10Fav] ⟨1⟩ ⟨2⟩ ⟨3⟩ 7).favorite =
      some (favExists
        (ToggleFavorite [c10Fav] ⟨1⟩ ⟨2⟩ ⟨3⟩ 7).store ⟨1⟩ ⟨2⟩)) ∧
    (favExists
        (ToggleFavorite (ToggleFavorite [c10Fav] ⟨1⟩ ⟨2⟩ ⟨3⟩ 7).store
          ⟨1⟩ ⟨2⟩ ⟨4⟩ 8).store ⟨1⟩ ⟨2⟩
      = favExists [c10Fav] ⟨1⟩ ⟨2⟩) :=
  c10_toggle_favorite_involution [c10Fav] ⟨1⟩ ⟨2⟩ ⟨3⟩ ⟨4⟩ 7 8
    (by simp) (by decide) (by decide)
